import Mathlib

set_option maxRecDepth 10000

/-!
Verification development for the `uecda_python` Daifugō arbiter.

This file shallowly embeds the parts of the repository that the verified
claims are about:

* `uecda_server/models/card.py` — cards, strength, the full deck;
* `uecda_server/game/analyzer.py` — `CardAnalyzer.analyze` and friends;
* `uecda_server/game/validator.py` — `MoveValidator.validate`;
* `uecda_server/game/engine.py` — the turn-loop body of `GameEngine.run_game`,
  `_process_valid_move`, `_apply_special_rules`, `_update_lock`,
  `_check_all_passed`, `_clear_field`, `_advance_player`, `_deal_cards`,
  `_get_exchange_cards_from_high`;
* `uecda_client/uecda_client/network/protocol.py` — the 8×15 `TableArray`,
  its byte codec and the card ⇄ table conversions.

Python sets of cards are represented as Lean lists (`CardSet.to_list` order
where the order matters to the code); Python `dict` keys as lists of keys;
machine integers as `Nat`/`Int` with explicit clamping where the code clamps.
-/

namespace UecdaSpec

/-- A playing card: `normal suit rank` with suit `0..3` (Spade, Heart, Diamond,
Club) and rank column `1..13` (3,4,…,K,A,2), or the joker.  Mirrors `Card` in
`uecda_server/models/card.py` (the joker there has `suit = 4`, `rank = None`). -/
inductive Card where
  | normal (suit : Nat) (rank : Nat)
  | joker
deriving DecidableEq, Repr

/-- `Card.is_joker` from `card.py`. -/
def Card.isJoker : Card → Bool
  | .joker => true
  | .normal _ _ => false

/-- `Card.strength` from `card.py`: joker is 100; otherwise the rank column,
reversed (`14 - rank`) under revolution. -/
def Card.strength (c : Card) (revolution : Bool) : Nat :=
  match c with
  | .joker => 100
  | .normal _ r => if revolution then 14 - r else r

/-- The `(suit, rank)` pair of a card, as used by `analyzer.py` when it builds
`all_positions`.  Only ever applied to non-joker cards there (the joker is
filtered out first); the joker arm is the protocol's joker cell. -/
def cardPos : Card → Nat × Nat
  | .normal s r => (s, r)
  | .joker => (4, 1)

/-- `create_full_deck` from `card.py`: the 52 suit cards plus one joker. -/
def fullDeckList : List Card :=
  ([0, 1, 2, 3].flatMap (fun s => (List.range 13).map (fun i => Card.normal s (i + 1))))
    ++ [Card.joker]

/-- `CardType` from `models/game_state.py`. -/
inductive CardType where
  | EMPTY
  | SINGLE
  | PAIR
  | SEQUENCE
  | JOKER_SINGLE
deriving DecidableEq, Repr

/-- `AnalysisError` from `game/analyzer.py`. -/
inductive AnalysisError where
  | NONE
  | MULTIPLE_JOKERS
  | INVALID_POSITION
  | SEQUENCE_TOO_SHORT
  | INVALID_SUIT
  | COUNT_MISMATCH
deriving DecidableEq, Repr

/-- `CardAnalysis` from `game/analyzer.py`. -/
structure CardAnalysis where
  baseRank : Int
  count : Nat
  suitPattern : Nat
  cardType : CardType
  error : AnalysisError := .NONE
  hasJokerSubstitute : Bool := false
deriving DecidableEq, Repr

/-- `CardAnalysis.is_valid`. -/
def CardAnalysis.isValid (a : CardAnalysis) : Bool := a.error = AnalysisError.NONE

/-- `CardAnalysis.is_pass`. -/
def CardAnalysis.isPass (a : CardAnalysis) : Bool := a.cardType = CardType.EMPTY

/-- The consecutive-ranks test of `_analyze_multiple`
(`ranks[i] == ranks[i-1] + 1` over the sorted rank list). -/
def isConsecutive : List Nat → Bool
  | [] => true
  | [_] => true
  | a :: b :: rest => b = a + 1 && isConsecutive (b :: rest)

/-- The `all_positions` construction of `_analyze_multiple`: card positions
followed by joker-substitute positions not already present. -/
def addJokerPositions (ps jp : List (Nat × Nat)) : List (Nat × Nat) :=
  jp.foldl (fun acc p => if acc.contains p then acc else acc ++ [p]) ps

/-- `CardAnalyzer._analyze_multiple` from `game/analyzer.py`.  `cards` is the
list of non-joker cards of the submission. -/
def analyzeMultiple (cards : List Card) (jokerPositions : List (Nat × Nat))
    (hasJoker : Bool) (revolution : Bool) : CardAnalysis :=
  if cards.isEmpty ∧ jokerPositions.isEmpty then
    ⟨-1, 0, 0, .EMPTY, .NONE, false⟩
  else
    let allPositions := addJokerPositions (cards.map cardPos) jokerPositions
    if allPositions.isEmpty then
      ⟨-1, 0, 0, .EMPTY, .NONE, false⟩
    else
      let ranks := List.insertionSort (· ≤ ·) (allPositions.map Prod.snd)
      let headSuit := (allPositions.headD (0, 0)).1
      let oneSuit := allPositions.all (fun p => p.1 = headSuit)
      if oneSuit ∧ isConsecutive ranks then
        if allPositions.length < 3 then
          ⟨(ranks.headD 0 : Nat), allPositions.length, 1 <<< headSuit, .SEQUENCE,
            .SEQUENCE_TOO_SHORT, false⟩
        else
          ⟨((if revolution then ranks.getLastD 0 else ranks.headD 0) : Nat),
            allPositions.length, 1 <<< headSuit, .SEQUENCE, .NONE, hasJoker⟩
      else if ranks.all (fun x => x = ranks.headD 0) then
        let suitPattern := allPositions.foldl (fun acc p => acc ||| (1 <<< p.1)) 0
        if suitPattern ≥ 16 ∧ suitPattern ≠ 31 then
          ⟨(ranks.headD 0 : Nat), allPositions.length, suitPattern, .PAIR, .INVALID_SUIT, false⟩
        else
          ⟨(ranks.headD 0 : Nat), allPositions.length, suitPattern, .PAIR, .NONE, hasJoker⟩
      else
        ⟨-1, allPositions.length, 0, .EMPTY, .COUNT_MISMATCH, false⟩

/-- `CardAnalyzer.analyze` from `game/analyzer.py`. -/
def analyze (cards : List Card) (jokerPositions : List (Nat × Nat))
    (revolution : Bool) : CardAnalysis :=
  let cardCount := cards.length
  let hasJoker := cards.any Card.isJoker || !jokerPositions.isEmpty
  let jokerCount := if hasJoker then 1 else 0
  if cardCount = 0 then
    ⟨-1, 0, 0, .EMPTY, .NONE, false⟩
  else if jokerCount > 1 then
    ⟨-1, cardCount, 0, .EMPTY, .MULTIPLE_JOKERS, false⟩
  else
    let normalCards := cards.filter (fun c => !c.isJoker)
    if cardCount = 1 ∧ hasJoker ∧ normalCards.isEmpty then
      ⟨14, 1, 0, .JOKER_SINGLE, .NONE, false⟩
    else if cardCount = 1 then
      match normalCards with
      | c :: _ => ⟨((cardPos c).2 : Nat), 1, 1 <<< (cardPos c).1, .SINGLE, .NONE, false⟩
      | [] => ⟨14, 1, 0, .JOKER_SINGLE, .NONE, false⟩
    else
      analyzeMultiple normalCards jokerPositions hasJoker revolution

/-- `CardAnalyzer.check_special_card` from `game/analyzer.py` (8-cut and
11-back detection). -/
def checkSpecialCard (analysis : CardAnalysis) (specialRank : Int)
    (revolution : Bool) : Bool :=
  if analysis.cardType = CardType.SEQUENCE then
    let low := if revolution then analysis.baseRank - analysis.count + 1 else analysis.baseRank
    let high := if revolution then analysis.baseRank else analysis.baseRank + analysis.count - 1
    low ≤ specialRank ∧ specialRank ≤ high
  else
    analysis.baseRank = specialRank

/-- `ValidationResult` from `game/validator.py` (the log-only `error_message`
string is omitted; it never influences control flow). -/
structure ValidationResult where
  isValid : Bool
  isPass : Bool := false
deriving DecidableEq, Repr

/-- `FieldState` from `models/game_state.py`.  The defaults are exactly the
cleared field, so `FieldState.clear` returns `{}`. -/
structure FieldState where
  cards : List Card := []
  cardType : CardType := .EMPTY
  cardCount : Nat := 0
  baseRank : Int := -1
  suitPattern : Nat := 0
  isLocked : Bool := false
  lockCount : Nat := 0
deriving DecidableEq, Repr

/-- `FieldState.clear`. -/
def FieldState.clear (_f : FieldState) : FieldState := {}

/-- `FieldState.is_empty`. -/
def FieldState.isEmpty (f : FieldState) : Bool := f.cardType = CardType.EMPTY

/-- `GameState` from `models/game_state.py`. -/
structure GameState where
  gameNumber : Nat := 1
  turnNumber : Nat := 0
  currentPlayer : Nat := 0
  lastPlayer : Int := -1
  direction : Int := 1
  isRevolution : Bool := false
  isElevenBack : Bool := false
  isJokerSingle : Bool := false
  consecutivePasses : Nat := 0
  finishedCount : Nat := 0
  field : FieldState := {}
deriving DecidableEq, Repr

/-- `GameState.effective_revolution`: revolution XOR 11-back. -/
def GameState.effectiveRevolution (s : GameState) : Bool :=
  s.isRevolution != s.isElevenBack

/-- `GameState.reset_for_new_round` (field flows). -/
def GameState.resetForNewRound (s : GameState) : GameState :=
  { s with field := s.field.clear, consecutivePasses := 0,
           isJokerSingle := false, isElevenBack := false }

/-- `MoveValidator._check_hand_contains` from `game/validator.py`. -/
def checkHandContains (hand : List Card) (submitted : List Card)
    (jokerPositions : List (Nat × Nat)) : Bool :=
  let jokerUsed := !jokerPositions.isEmpty
  if jokerUsed ∧ ¬ hand.any Card.isJoker then false
  else
    submitted.all (fun card =>
      if card.isJoker then true
      else if jokerPositions.contains (cardPos card) then true
      else hand.contains card)

/-- `MoveValidator._compare_with_field` from `game/validator.py`.  The inner
`submitted.card_type == SEQUENCE and not revolution` adjustment is kept even
though it sits inside the `revolution` branch of the source (where it can never
fire), to stay line-for-line with the code. -/
def compareWithField (submitted : CardAnalysis) (gameState : GameState) : ValidationResult :=
  let field := gameState.field
  let revolution := gameState.effectiveRevolution
  if submitted.cardType = CardType.JOKER_SINGLE then
    if field.cardType = CardType.SINGLE then { isValid := true }
    else { isValid := false }
  else if gameState.isJokerSingle
      ∧ submitted.cardType = CardType.SINGLE
      ∧ submitted.baseRank = 1
      ∧ submitted.suitPattern = 1 <<< 0 then
    { isValid := true }
  else if submitted.count ≠ field.cardCount then { isValid := false }
  else if submitted.cardType ≠ field.cardType then { isValid := false }
  else if field.isLocked ∧ submitted.suitPattern ≠ field.suitPattern then { isValid := false }
  else if submitted.cardType = CardType.PAIR then
    if revolution then
      if submitted.baseRank ≥ field.baseRank then { isValid := false } else { isValid := true }
    else
      if submitted.baseRank ≤ field.baseRank then { isValid := false } else { isValid := true }
  else
    if revolution then
      let submittedHighest :=
        if submitted.cardType = CardType.SEQUENCE ∧ ¬ revolution then
          submitted.baseRank + submitted.count - 1
        else submitted.baseRank
      let fieldHighest :=
        if submitted.cardType = CardType.SEQUENCE ∧ ¬ revolution then
          field.baseRank + field.cardCount - 1
        else field.baseRank
      if submittedHighest ≥ fieldHighest then { isValid := false } else { isValid := true }
    else
      if submitted.baseRank ≤ field.baseRank then { isValid := false } else { isValid := true }

/-- `MoveValidator.validate` from `game/validator.py`. -/
def validate (submitted : CardAnalysis) (playerHand : List Card)
    (submittedCards : List Card) (gameState : GameState)
    (jokerPositions : List (Nat × Nat)) : ValidationResult :=
  if submitted.isPass then { isValid := true, isPass := true }
  else if ¬ submitted.isValid then { isValid := false }
  else if ¬ checkHandContains playerHand submittedCards jokerPositions then { isValid := false }
  else if gameState.field.isEmpty then { isValid := true }
  else compareWithField submitted gameState

/-- `RulesConfig` from `config.py` with its defaults. -/
structure RulesConfig where
  revolution : Bool := true
  eightStop : Bool := true
  lock : Bool := true
  cardExchange : Bool := true
  spade3Joker : Bool := true
  sennichite : Bool := true
  elevenBack : Bool := false
deriving DecidableEq, Repr

/-- The default rules (`Config().rules`). -/
def defaultRules : RulesConfig := {}

/-- The per-player mutable flags of `models/player.py` used by the turn loop. -/
structure PlayerFlags where
  hasPassed : Bool := false
  hasFinished : Bool := false
  finishOrder : Int := -1
deriving DecidableEq, Repr

/-- The engine state threaded through `GameEngine.run_game`: the `GameState`,
the per-player flags and hands (indexed by player id 0..4), the `finish_order`
list local to `run_game`, and the loop's `game_ended` flag. -/
structure Engine where
  state : GameState := {}
  players : List PlayerFlags := List.replicate 5 {}
  hands : List (List Card) := List.replicate 5 []
  finishOrder : List Nat := []
  gameEnded : Bool := false
deriving DecidableEq, Repr

/-- `CardSet.get_joker` followed by `remove`: drop the joker from a hand. -/
def removeFirstJoker : List Card → List Card
  | [] => []
  | c :: rest => if c.isJoker then rest else c :: removeFirstJoker rest

/-- The hand update of `_process_valid_move`: played cards leave the hand; a
joker (or a joker substitution) removes the joker itself. -/
def removePlayedCards (hand : List Card) (cards : List Card)
    (jokerPositions : List (Nat × Nat)) : List Card :=
  cards.foldl (fun h card =>
    if card.isJoker then removeFirstJoker h
    else if jokerPositions.contains (cardPos card) then removeFirstJoker h
    else h.erase card) hand

/-- `GameEngine._clear_field`: reset the round, clear pass flags, and hand the
lead to `last_player` when one exists. -/
def clearFieldE (e : Engine) : Engine :=
  let st := e.state.resetForNewRound
  let players := e.players.map (fun p => { p with hasPassed := false })
  let st := if st.lastPlayer ≥ 0 then { st with currentPlayer := st.lastPlayer.toNat } else st
  { e with state := st, players := players }

/-- `GameEngine._apply_special_rules`: joker-single flag, 8-cut, revolution,
11-back — in source order, with `revolution` sampled once at entry. -/
def applySpecialRules (rules : RulesConfig) (e : Engine) (analysis : CardAnalysis) : Engine :=
  let revolution := e.state.effectiveRevolution
  let e := { e with state :=
    { e.state with isJokerSingle := analysis.cardType = CardType.JOKER_SINGLE } }
  let e :=
    if rules.eightStop ∧ checkSpecialCard analysis 6 revolution then clearFieldE e else e
  let e :=
    if rules.revolution ∧
        ((analysis.cardType = CardType.PAIR ∧ analysis.count ≥ 4) ∨
         (analysis.cardType = CardType.SEQUENCE ∧ analysis.count ≥ 5)) then
      { e with state := { e.state with isRevolution := !e.state.isRevolution } }
    else e
  if rules.elevenBack ∧ checkSpecialCard analysis 9 revolution then
    { e with state := { e.state with isElevenBack := !e.state.isElevenBack } }
  else e

/-- `GameEngine._update_lock`.  Note the source compares
`analysis.suit_pattern` with `field.suit_pattern` after `_process_valid_move`
has already overwritten the field with this very analysis. -/
def updateLock (rules : RulesConfig) (e : Engine) (analysis : CardAnalysis) : Engine :=
  if ¬ rules.lock then e
  else
    let field := e.state.field
    if field.isEmpty then
      { e with state := { e.state with field := { field with isLocked := false, lockCount := 0 } } }
    else if analysis.suitPattern = field.suitPattern then
      let lockCount := field.lockCount + 1
      let isLocked := if lockCount ≥ 2 ∧ ¬ field.isLocked then true else field.isLocked
      { e with state := { e.state with field :=
          { field with lockCount := lockCount, isLocked := isLocked } } }
    else
      { e with state := { e.state with field := { field with lockCount := 1, isLocked := false } } }

/-- `GameEngine._process_valid_move`: remove the played cards from the hand,
install the new field, record `last_player`, reset the pass counter, then
apply special rules and the lock update. -/
def processValidMove (rules : RulesConfig) (e : Engine) (pid : Nat)
    (cards : List Card) (analysis : CardAnalysis)
    (jokerPositions : List (Nat × Nat)) : Engine :=
  let hand := removePlayedCards (e.hands.getD pid []) cards jokerPositions
  let e := { e with hands := e.hands.set pid hand }
  let field := { e.state.field with
    cards := cards, cardType := analysis.cardType, cardCount := analysis.count,
    baseRank := analysis.baseRank, suitPattern := analysis.suitPattern }
  let e := { e with state := { e.state with
    field := field, lastPlayer := (pid : Int), consecutivePasses := 0 } }
  let e := applySpecialRules rules e analysis
  updateLock rules e analysis

/-- `GameEngine._check_all_passed`: all active players except the last player
have passed. -/
def checkAllPassed (e : Engine) : Bool :=
  let active := e.players.filter (fun p => !p.hasFinished)
  let passedCount := (active.filter (fun p => p.hasPassed)).length
  passedCount ≥ active.length - 1

/-- The `while players[next].has_finished and attempts < num_players` loop of
`_advance_player`, with `attempts` counted down as fuel. -/
def advanceLoop (players : List PlayerFlags) (direction : Int) : Nat → Nat → Nat
  | next, 0 => next
  | next, fuel + 1 =>
    if (players.getD next {}).hasFinished then
      advanceLoop players direction
        (((next : Int) + direction).emod players.length).toNat fuel
    else next

/-- `GameEngine._advance_player`. -/
def advancePlayer (e : Engine) : Engine :=
  let numPlayers := e.players.length
  let direction := e.state.direction
  let next := (((e.state.currentPlayer : Int) + direction).emod numPlayers).toNat
  let next := advanceLoop e.players direction next numPlayers
  { e with state := { e.state with currentPlayer := next } }

/-- `GameEngine._resolve_sennichite`.  The source shuffles the remaining
player ids before appending them to the finish order; the shuffle order is
irrelevant to every theorem below (the branch is proved unreachable in the
runs considered), so the ids are appended in id order here. -/
def resolveSennichite (e : Engine) : Engine :=
  let remaining := (List.range e.players.length).filter (fun pid => !e.finishOrder.contains pid)
  remaining.foldl (fun e pid =>
    let ord := e.finishOrder ++ [pid]
    let players := e.players.set pid
      { (e.players.getD pid {}) with hasFinished := true, finishOrder := (ord.length : Int) - 1 }
    { e with finishOrder := ord, players := players }) e

/-- One iteration of the `while` loop of `GameEngine.run_game`, given the
current player's submission (the cards and joker positions read from their
table).  Network sends and logging are omitted; everything that touches the
game state is kept in source order.  The loop also increments
`state.turn_number`, which nothing but the omitted logging calls and the
`_on_turn` callback ever read; that increment is omitted with the logging, so
`turnNumber` stays at its initial value throughout. -/
def loopBody (rules : RulesConfig) (e : Engine) (submittedCards : List Card)
    (jokerPositions : List (Nat × Nat)) : Engine :=
  let current := e.state.currentPlayer
  let player := e.players.getD current {}
  if player.hasFinished then advancePlayer e
  else if player.hasPassed ∧ ¬ e.state.field.isEmpty then advancePlayer e
  else
    let analysis := analyze submittedCards jokerPositions e.state.effectiveRevolution
    let validation := validate analysis (e.hands.getD current []) submittedCards
      e.state jokerPositions
    let e :=
      if validation.isValid ∧ ¬ validation.isPass then
        let e := processValidMove rules e current submittedCards analysis jokerPositions
        if (e.hands.getD current []).length = 0 then
          let finished := { e.players.getD current {} with
            hasFinished := true, finishOrder := (e.state.finishedCount : Int) }
          { e with
            players := e.players.set current finished,
            finishOrder := e.finishOrder ++ [current],
            state := { e.state with finishedCount := e.state.finishedCount + 1 } }
        else e
      else
        { e with
          players := e.players.set current { player with hasPassed := true },
          state := { e.state with consecutivePasses := e.state.consecutivePasses + 1 } }
    let e := if checkAllPassed e then clearFieldE e else e
    let e :=
      if e.state.consecutivePasses ≥ 20 then { resolveSennichite e with gameEnded := true }
      else e
    let e := if e.state.finishedCount ≥ 4 then { e with gameEnded := true } else e
    if ¬ e.gameEnded then advancePlayer e else e

/-- One guarded step of the `run_game` turn loop: the loop runs while
`finished_count < 4 and not game_ended`. -/
def runStep (rules : RulesConfig) (sub : List Card)
    (jp : List (Nat × Nat)) (e : Engine) : Engine :=
  if e.state.finishedCount < 4 ∧ ¬ e.gameEnded then loopBody rules e sub jp else e

/-- `GameEngine._deal_cards`: the shuffled deck is dealt round-robin over the
five seats starting at `initialSeat`; card `i` goes to seat `(i + initialSeat)
% 5` (the seat order is the identity `[0,1,2,3,4]` set in `_init_game`).
`dealHand cs k p` is the hand of player `p` when cards `cs` are dealt from
running index `k`. -/
def dealHand : List Card → Nat → Nat → List Card
  | [], _, _ => []
  | c :: cs, k, p =>
    if k % 5 = p then c :: dealHand cs (k + 1) p else dealHand cs (k + 1) p

/-- The length of a dealt hand depends only on the deck size and the starting
index; this function mirrors that count. -/
def dealLen : Nat → Nat → Nat → Nat
  | 0, _, _ => 0
  | n + 1, k, p => (if k % 5 = p then 1 else 0) + dealLen n (k + 1) p

/-- The strength preorder used by the exchange auto-selection (`key=lambda c:
c.strength()`, i.e. normal order, revolution false). -/
def strengthLe (a b : Card) : Prop := a.strength false ≤ b.strength false

instance : DecidableRel strengthLe := fun a b => Nat.decLe _ _

instance : IsTotal Card strengthLe := ⟨fun a b => Nat.le_total _ _⟩

instance : IsTrans Card strengthLe := ⟨fun _ _ _ => Nat.le_trans⟩

/-- The weakest-first auto-selection of `_get_exchange_cards_from_high`:
stable-sort the hand by normal-order strength and take the first `count`
cards (Python's `sorted` is stable, as is insertion sort). -/
def autoSelectWeakest (hand : List Card) (count : Nat) : List Card :=
  (List.insertionSort strengthLe hand).take count

/-- `GameEngine._get_exchange_cards_from_high`: a wrong-sized selection is
replaced by the weakest-`count` auto-selection; then any selection containing
a card not in the giver's hand is likewise replaced. -/
def getExchangeCardsFromHigh (hand : List Card) (submitted : List Card)
    (count : Nat) : List Card :=
  let cards := if submitted.length ≠ count then autoSelectWeakest hand count else submitted
  if cards.any (fun c => !hand.contains c) then autoSelectWeakest hand count else cards

/-! The wire table (`uecda_client/network/protocol.py`).  A `TableArray` is the
8×15 integer matrix, held as a list of row lists of `Int` (Python ints);
out-of-range reads default like the claims never exercise. -/

/-- Read cell `(i, j)` of a table. -/
def tableGet (t : List (List Int)) (i j : Nat) : Int := (t.getD i []).getD j 0

/-- Write cell `(i, j)` of a table. -/
def tableSetCell (t : List (List Int)) (i j : Nat) (v : Int) : List (List Int) :=
  t.set i ((t.getD i []).set j v)

/-- The all-zero 8×15 table (`TableArray.__init__`). -/
def emptyTable : List (List Int) := List.replicate 8 (List.replicate 15 0)

/-- The row-0..4 clearing loop at the top of `TableArray.set_cards`
(rows 5..7 are left untouched). -/
def clearCardRows (t : List (List Int)) : List (List Int) :=
  (List.range 8).map (fun i => if i < 5 then List.replicate 15 (0 : Int) else t.getD i [])

/-- `TableArray.set_cards`: clear rows 0–4, then write value 1 at
`[suit][rank]` per normal card and value 2 at `[4][1]` for the joker. -/
def setCards (t : List (List Int)) (cards : List Card) : List (List Int) :=
  cards.foldl (fun t c =>
    match c with
    | .joker => tableSetCell t 4 1 2
    | .normal s r => tableSetCell t s r 1) (clearCardRows t)

/-- The rank columns `1..13` iterated by `for rank in Rank`. -/
def rankCols : List Nat := (List.range 13).map (· + 1)

/-- The suit rows iterated by the card loops. -/
def suitRows : List Nat := [0, 1, 2, 3]

/-- `TableArray.get_submitted_cards`: value 1 cells are plain cards, value 2
cells in rows 0–3 are joker substitutions; if no substitution was seen, a
value-2 cell anywhere in rows 0–3 (columns 0–14) yields a standalone joker.
Row 4 — where `set_cards` puts the held joker — is never scanned. -/
def getSubmittedCards (t : List (List Int)) : List Card × List (Nat × Nat) :=
  let cards := suitRows.flatMap (fun s => rankCols.filterMap (fun r =>
    let val := tableGet t s r
    if val = 1 ∨ val = 2 then some (Card.normal s r) else none))
  let jokerPositions := suitRows.flatMap (fun s => rankCols.filterMap (fun r =>
    if tableGet t s r = 2 then some (s, r) else none))
  if jokerPositions.isEmpty then
    if suitRows.any (fun s => (List.range 15).any (fun col => tableGet t s col = 2)) then
      (cards ++ [Card.joker], jokerPositions)
    else (cards, jokerPositions)
  else (cards, jokerPositions)

/-- One big-endian u32, as written by `struct.pack_into("!I", …)`. -/
def packU32 (v : Nat) : List Nat :=
  [v / 16777216 % 256, v / 65536 % 256, v / 256 % 256, v % 256]

/-- The clamping in `TableArray.to_bytes`: `value = cell if cell >= 0 else 0`. -/
def clampCell (c : Int) : Nat := (if 0 ≤ c then c else 0).toNat

/-- A clamped cell as it survives an encode/decode round trip. -/
def clampInt (c : Int) : Int := (clampCell c : Nat)

/-- Pack one cell; `struct.pack` raises (modelled as `none`) when the value
does not fit in 32 bits. -/
def cellBytes (c : Int) : Option (List Nat) :=
  if clampCell c < 4294967296 then some (packU32 (clampCell c)) else none

/-- The inner `for j in range(TABLE_COLS)` packing loop of `to_bytes`. -/
def bytesOfRow : List Int → Option (List Nat)
  | [] => some []
  | c :: rest => (cellBytes c).bind (fun b => (bytesOfRow rest).map (fun bs => b ++ bs))

/-- `TableArray.to_bytes`: rows packed in order, 4 bytes per cell,
row-major — 480 bytes for a well-formed table. -/
def toBytes : List (List Int) → Option (List Nat)
  | [] => some []
  | row :: rest => (bytesOfRow row).bind (fun b => (toBytes rest).map (fun bs => b ++ bs))

/-- One big-endian u32 read at byte offset `off`, as by
`struct.unpack_from("!I", data, offset)`. -/
def u32At (bs : List Nat) (off : Nat) : Int :=
  ((((bs.getD off 0) * 256 + bs.getD (off + 1) 0) * 256 + bs.getD (off + 2) 0) * 256
    + bs.getD (off + 3) 0 : Nat)

/-- `TableArray.from_bytes`: exactly 480 bytes (else `ValueError`, modelled as
`none`), cell `(i, j)` unpacked from offset `(i*15 + j)*4`. -/
def fromBytes (bs : List Nat) : Option (List (List Int)) :=
  if bs.length = 480 then
    some ((List.range 8).map (fun i =>
      (List.range 15).map (fun j => u32At bs ((i * 15 + j) * 4))))
  else none

/-- Encode then decode a table. -/
def tableRoundTrip (t : List (List Int)) : Option (List (List Int)) :=
  (toBytes t).bind fromBytes

/-- Well-formed 8×15 table. -/
def TableWF (t : List (List Int)) : Prop :=
  t.length = 8 ∧ ∀ row ∈ t, row.length = 15

/-! Concrete engine runs used by the engine-level claims. -/

/-- A fresh game where every client always submits an empty table (a pass):
hands are a deal of the full deck, player 0 leads, everything else default —
the state `_init_game` produces for game 1 when the random starting seat is 0
and player 0 is chosen first. -/
def allPassInit : Engine :=
  { hands := (List.range 5).map (dealHand fullDeckList 0) }

/-- One turn-loop step in which the current player submits an empty table. -/
def allPassStep (e : Engine) : Engine := runStep defaultRules [] [] e

/-- The engine after `n` all-pass turn-loop iterations. -/
def allPassRun (n : Nat) : Engine := allPassStep^[n] allPassInit

/-- Helper: pass flags for the five players. -/
def flagsOf (l : List Bool) : List PlayerFlags := l.map (fun b => { hasPassed := b })

/-- The 20-state cycle of the all-pass run: current player, pass counter and
pass flags after `r` all-pass iterations, for `r < 20`; the run is exactly
periodic, `allPassRun n = allPassTab (n % 20)`. -/
def allPassTab : Nat → Engine
  | 0 => { players := flagsOf [false, false, false, false, false], hands := allPassInit.hands }
  | 1 => { state := { currentPlayer := 1, consecutivePasses := 1 },
           players := flagsOf [true, false, false, false, false], hands := allPassInit.hands }
  | 2 => { state := { currentPlayer := 2, consecutivePasses := 2 },
           players := flagsOf [true, true, false, false, false], hands := allPassInit.hands }
  | 3 => { state := { currentPlayer := 3, consecutivePasses := 3 },
           players := flagsOf [true, true, true, false, false], hands := allPassInit.hands }
  | 4 => { state := { currentPlayer := 4, consecutivePasses := 0 },
           players := flagsOf [false, false, false, false, false], hands := allPassInit.hands }
  | 5 => { state := { currentPlayer := 0, consecutivePasses := 1 },
           players := flagsOf [false, false, false, false, true], hands := allPassInit.hands }
  | 6 => { state := { currentPlayer := 1, consecutivePasses := 2 },
           players := flagsOf [true, false, false, false, true], hands := allPassInit.hands }
  | 7 => { state := { currentPlayer := 2, consecutivePasses := 3 },
           players := flagsOf [true, true, false, false, true], hands := allPassInit.hands }
  | 8 => { state := { currentPlayer := 3, consecutivePasses := 0 },
           players := flagsOf [false, false, false, false, false], hands := allPassInit.hands }
  | 9 => { state := { currentPlayer := 4, consecutivePasses := 1 },
           players := flagsOf [false, false, false, true, false], hands := allPassInit.hands }
  | 10 => { state := { currentPlayer := 0, consecutivePasses := 2 },
            players := flagsOf [false, false, false, true, true], hands := allPassInit.hands }
  | 11 => { state := { currentPlayer := 1, consecutivePasses := 3 },
            players := flagsOf [true, false, false, true, true], hands := allPassInit.hands }
  | 12 => { state := { currentPlayer := 2, consecutivePasses := 0 },
            players := flagsOf [false, false, false, false, false], hands := allPassInit.hands }
  | 13 => { state := { currentPlayer := 3, consecutivePasses := 1 },
            players := flagsOf [false, false, true, false, false], hands := allPassInit.hands }
  | 14 => { state := { currentPlayer := 4, consecutivePasses := 2 },
            players := flagsOf [false, false, true, true, false], hands := allPassInit.hands }
  | 15 => { state := { currentPlayer := 0, consecutivePasses := 3 },
            players := flagsOf [false, false, true, true, true], hands := allPassInit.hands }
  | 16 => { state := { currentPlayer := 1, consecutivePasses := 0 },
            players := flagsOf [false, false, false, false, false], hands := allPassInit.hands }
  | 17 => { state := { currentPlayer := 2, consecutivePasses := 1 },
            players := flagsOf [false, true, false, false, false], hands := allPassInit.hands }
  | 18 => { state := { currentPlayer := 3, consecutivePasses := 2 },
            players := flagsOf [false, true, true, false, false], hands := allPassInit.hands }
  | 19 => { state := { currentPlayer := 4, consecutivePasses := 3 },
            players := flagsOf [false, true, true, true, false], hands := allPassInit.hands }
  | _ + 20 => {}


/-- Starting engine for the lock scenario of claim 1: fresh game, player 0
holds ♠5 (and ♠K), player 1 holds ♥7 (and ♥K); the field is empty. -/
def lockDemoInit : Engine :=
  { hands := [[Card.normal 0 3, Card.normal 0 11], [Card.normal 1 5, Card.normal 1 11],
              [Card.normal 2 3], [Card.normal 2 4], [Card.normal 2 5]] }

/-- Lock scenario: player 0 leads the single ♠5, then player 1 plays the
single ♥7 — two accepted plays with different suit-patterns. -/
def lockDemoAfterFirst : Engine := loopBody defaultRules lockDemoInit [Card.normal 0 3] []

/-- The engine after the second (heart) play of the lock scenario. -/
def lockDemoAfterSecond : Engine :=
  loopBody defaultRules lockDemoAfterFirst [Card.normal 1 5] []

/-- Starting engine for the 8-cut scenario of claim 2: fresh game, player 0
holds ♠5 ♥5 ♠K, player 1 holds ♦8 ♣8 ♦K. -/
def eightCutInit : Engine :=
  { hands := [[Card.normal 0 3, Card.normal 1 3, Card.normal 0 11],
              [Card.normal 2 6, Card.normal 3 6, Card.normal 2 11],
              [Card.normal 2 3], [Card.normal 2 4], [Card.normal 2 5]] }

/-- 8-cut scenario: player 0 leads the pair ♠5 ♥5. -/
def eightCutAfterFirst : Engine :=
  loopBody defaultRules eightCutInit [Card.normal 0 3, Card.normal 1 3] []

/-- The engine after player 1 answers with the pair ♦8 ♣8, which 8-cuts. -/
def eightCutAfterSecond : Engine :=
  loopBody defaultRules eightCutAfterFirst [Card.normal 2 6, Card.normal 3 6] []

/-- A same-suit consecutive run of `len` cards starting at rank `r`
(the shape of a ladder submission). -/
def runCards (s r len : Nat) : List Card :=
  (List.range len).map (fun i => Card.normal s (r + i))

/-- The positions of `runCards s r len`. -/
def posRun (s r len : Nat) : List (Nat × Nat) :=
  (List.range len).map (fun i => (s, r + i))

/-- The ranks `r, r+1, …, r+len-1` of a run. -/
def natRun (r len : Nat) : List Nat :=
  (List.range len).map (fun i => r + i)

/-- A field holding the single ♠5, used to instantiate claim 4. -/
def compareDemoState : GameState :=
  { field := { cards := [Card.normal 0 3], cardType := .SINGLE, cardCount := 1,
               baseRank := 3, suitPattern := 1 } }

/-- The analysis of the single ♥7, used to instantiate claim 4. -/
def compareDemoAnalysis : CardAnalysis := ⟨5, 1, 2, .SINGLE, .NONE, false⟩

/-- Decidable check that the card rows 0–3 of a table are entirely zero. -/
def zeroRows03 (t : List (List Int)) : Bool :=
  (List.range 4).all (fun s => (List.range 15).all (fun j => tableGet t s j = 0))

/-- A game state whose field is a joker-single, used to instantiate claim 5. -/
def jokerSingleDemoState : GameState :=
  { isJokerSingle := true,
    field := { cards := [Card.joker], cardType := .JOKER_SINGLE, cardCount := 1,
               baseRank := 14, suitPattern := 0 } }

/-- A hand holding ♠3 (and ♥7), used to instantiate claim 5. -/
def jokerSingleDemoHand : List Card := [Card.normal 0 1, Card.normal 1 5]

/-- A hand used to instantiate claim 8: ♠5, ♥3, the joker and ♦2. -/
def exchangeDemoHand : List Card :=
  [Card.normal 0 3, Card.normal 1 1, Card.joker, Card.normal 2 13]

/-- A well-formed all-fives table, used to instantiate claim 6. -/
def roundTripDemoTable : List (List Int) := List.replicate 8 (List.replicate 15 5)

/-! ## Theorems -/

theorem allPassStep_tab (r : Nat) (h : r < 20) :
    allPassStep (allPassTab r) = allPassTab ((r + 1) % 20) := by
  interval_cases r <;> rfl

theorem allPassRun_eq_tab (n : Nat) : allPassRun n = allPassTab (n % 20) := by
  induction n with
  | zero => rfl
  | succ n ih =>
    have h : allPassRun (n + 1) = allPassStep (allPassRun n) :=
      Function.iterate_succ_apply' _ _ _
    have h20 : n % 20 < 20 := Nat.mod_lt _ (by norm_num)
    rw [h, ih, allPassStep_tab _ h20]
    congr 1
    omega

/-- C3: refutation of "the turn loop terminates for every sequence of client
submissions".  When all five clients always pass, the loop guard
`finished_count < 4 and not game_ended` holds after every iteration — the loop
never exits — and `consecutive_passes` stays below 20 forever (every fourth
pass triggers `_check_all_passed`, whose `_clear_field` resets the counter
before the sennichite check can see 20), so the sennichite branch is
unreachable in this run. -/
theorem claim3_turn_loop_nontermination (n : Nat) :
    (allPassRun n).gameEnded = false ∧
    (allPassRun n).state.finishedCount < 4 ∧
    (allPassRun n).state.consecutivePasses < 20 := by
  rw [allPassRun_eq_tab]
  have h20 : n % 20 < 20 := Nat.mod_lt _ (by norm_num)
  have hall : ∀ k, k < 20 → (allPassTab k).gameEnded = false ∧
      (allPassTab k).state.finishedCount < 4 ∧
      (allPassTab k).state.consecutivePasses < 20 := by decide
  exact hall _ h20

/-- C1: counterexample evaluation for the lock claim.  From an empty field,
player 0's single ♠5 is accepted (`lock_count` becomes 1), then player 1's
single ♥7 is accepted — a play whose suit-pattern (heart, 2) differs from the
previous play's (spade, 1) — yet `_update_lock` activates the lock
(`is_locked = true`, `lock_count = 2`), because it compares the analysis
against the field pattern that `_process_valid_move` has already overwritten
with that same analysis.  The claim says such a play must reset `lock_count`
to 1 and keep `lock_active` false. -/
theorem claim1_lock_activates_despite_suit_change :
    lockDemoAfterFirst.state.field.suitPattern = 1 ∧
    lockDemoAfterFirst.state.field.isLocked = false ∧
    lockDemoAfterFirst.state.field.lockCount = 1 ∧
    lockDemoAfterFirst.state.currentPlayer = 1 ∧
    (validate (analyze [Card.normal 1 5] [] false) (lockDemoAfterFirst.hands.getD 1 [])
      [Card.normal 1 5] lockDemoAfterFirst.state []).isValid = true ∧
    lockDemoAfterSecond.state.field.suitPattern = 2 ∧
    lockDemoAfterSecond.state.lastPlayer = 1 ∧
    lockDemoAfterSecond.state.field.isLocked = true ∧
    lockDemoAfterSecond.state.field.lockCount = 2 := by decide

/-- C2: counterexample evaluation for the 8-cut leadership claim.  Player 0
leads the pair ♠5 ♥5; player 1 answers with the pair ♦8 ♣8, which is accepted
and 8-cuts: the field is cleared immediately and `_clear_field` sets
`current_player` to the 8-cut player (1) — but `run_game` then calls
`_advance_player` unconditionally, so the next player to move is player 2,
not the 8-cut player.  The same unconditional advance also moves past
`last_player` after a universal-pass clear. -/
theorem claim2_eight_cut_leader_not_kept :
    eightCutAfterFirst.state.currentPlayer = 1 ∧
    eightCutAfterFirst.state.field.cardType = CardType.PAIR ∧
    (validate (analyze [Card.normal 2 6, Card.normal 3 6] [] false)
      (eightCutAfterFirst.hands.getD 1 []) [Card.normal 2 6, Card.normal 3 6]
      eightCutAfterFirst.state []).isValid = true ∧
    eightCutAfterSecond.state.field.cardType = CardType.EMPTY ∧
    eightCutAfterSecond.state.lastPlayer = 1 ∧
    eightCutAfterSecond.state.currentPlayer = 2 := by decide

theorem natRun_succ (r n : Nat) : natRun r (n + 1) = r :: natRun (r + 1) n := by
  simp only [natRun, List.range_succ_eq_map, List.map_cons, Nat.add_zero, List.map_map]
  congr 1
  exact List.map_congr_left (fun a _ => by simp only [Function.comp_apply]; omega)

theorem natRun_mem_le {x r len : Nat} (h : x ∈ natRun r len) : r ≤ x := by
  simp only [natRun, List.mem_map, List.mem_range] at h
  obtain ⟨i, _, hi⟩ := h
  omega

theorem natRun_sorted (r len : Nat) : List.Sorted (· ≤ ·) (natRun r len) := by
  induction len generalizing r with
  | zero => simp [natRun]
  | succ n ih =>
    rw [natRun_succ, List.sorted_cons]
    exact ⟨fun b hb => le_trans (Nat.le_succ r) (natRun_mem_le hb), ih (r + 1)⟩

theorem natRun_consecutive (r len : Nat) : isConsecutive (natRun r len) = true := by
  induction len using Nat.twoStepInduction generalizing r with
  | zero => rfl
  | one => rfl
  | more n _ ih2 =>
    rw [natRun_succ, natRun_succ, isConsecutive]
    simp only [Bool.and_eq_true, decide_eq_true_eq]
    refine ⟨trivial, ?_⟩
    rw [← natRun_succ]
    exact ih2 (r + 1)

theorem natRun_headD (r n d : Nat) : (natRun r (n + 1)).headD d = r := by
  rw [natRun_succ]; rfl

theorem natRun_getLastD (r n d : Nat) : (natRun r (n + 1)).getLastD d = r + n := by
  induction n generalizing r d with
  | zero => rw [natRun_succ]; rfl
  | succ n ih =>
    rw [natRun_succ, List.getLastD_cons]
    have h := ih (r + 1) r
    omega



theorem posRun_succ (s r n : Nat) : posRun s r (n + 1) = (s, r) :: posRun s (r + 1) n := by
  simp only [posRun, List.range_succ_eq_map, List.map_cons, Nat.add_zero, List.map_map]
  congr 1
  exact List.map_congr_left (fun a _ => by
    simp only [Function.comp_apply, Prod.mk.injEq, eq_self_iff_true, true_and]
    omega)

theorem posRun_map_snd (s r len : Nat) : (posRun s r len).map Prod.snd = natRun r len := by
  simp only [posRun, natRun, List.map_map]
  exact List.map_congr_left (fun a _ => rfl)

theorem posRun_length (s r len : Nat) : (posRun s r len).length = len := by
  simp [posRun]

theorem runCards_map_pos (s r len : Nat) : (runCards s r len).map cardPos = posRun s r len := by
  simp only [runCards, posRun, List.map_map]
  exact List.map_congr_left (fun a _ => rfl)

theorem analyzeMultiple_run (s r m : Nat) (rev : Bool) :
    analyzeMultiple (runCards s r (m + 3)) [] false rev =
      ⟨((if rev then r + (m + 2) else r : Nat) : Int), m + 3, 1 <<< s, .SEQUENCE, .NONE, false⟩ := by
  have hempty : (runCards s r (m + 3)).isEmpty = false := by simp [runCards]
  have hjp : addJokerPositions ((runCards s r (m + 3)).map cardPos) [] =
      posRun s r (m + 3) := by
    rw [runCards_map_pos]; rfl
  have hempty2 : (posRun s r (m + 3)).isEmpty = false := by rw [posRun_succ]; rfl
  have hhead : (posRun s r (m + 3)).headD (0, 0) = (s, r) := by rw [posRun_succ]; rfl
  have hone : (posRun s r (m + 3)).all (fun p => decide (p.1 = s)) = true := by
    simp only [List.all_eq_true, decide_eq_true_eq, posRun, List.mem_map, List.mem_range]
    rintro p ⟨i, _, rfl⟩
    rfl
  have hlt : ¬ ((m + 3) < 3) := by omega
  simp only [analyzeMultiple, hempty, hjp, hempty2, hhead, hone, posRun_map_snd,
    (natRun_sorted r (m + 3)).insertionSort_eq, natRun_consecutive, posRun_length, hlt,
    natRun_headD, natRun_getLastD, Bool.false_eq_true, List.isEmpty_nil, and_true, and_false,
    if_false, if_true, true_and, if_neg hlt]


theorem analyze_run (s r m : Nat) (rev : Bool) :
    analyze (runCards s r (m + 3)) [] rev =
      ⟨((if rev then r + (m + 2) else r : Nat) : Int), m + 3, 1 <<< s, .SEQUENCE, .NONE, false⟩ := by
  have hlen : (runCards s r (m + 3)).length = m + 3 := by simp [runCards]
  have hjk : (runCards s r (m + 3)).any Card.isJoker = false := by
    simp [runCards, Card.isJoker]
  have hfl : (runCards s r (m + 3)).filter (fun c => !c.isJoker) = runCards s r (m + 3) :=
    List.filter_eq_self.mpr (by simp [runCards, Card.isJoker])
  have h0 : ¬ (m + 3 = 0) := by omega
  have h1 : ¬ (m + 3 = 1) := by omega
  simp only [analyze, hlen, hjk, hfl, List.isEmpty_nil, Bool.not_true, Bool.or_false,
    if_neg h0, if_neg h1, Bool.false_eq_true, if_false, gt_iff_lt, Nat.lt_irrefl,
    false_and, and_false]
  rw [if_neg (by omega)]
  exact analyzeMultiple_run s r m rev

theorem compare_strict (sub : CardAnalysis) (st : GameState)
    (hjs : sub.cardType ≠ CardType.JOKER_SINGLE)
    (hsp3 : ¬(st.isJokerSingle = true ∧ sub.cardType = CardType.SINGLE ∧
        sub.baseRank = 1 ∧ sub.suitPattern = 1 <<< 0))
    (hcount : sub.count = st.field.cardCount)
    (htype : sub.cardType = st.field.cardType)
    (hlock : st.field.isLocked = true → sub.suitPattern = st.field.suitPattern) :
    ((compareWithField sub st).isValid = true ↔
      (if st.effectiveRevolution then sub.baseRank < st.field.baseRank
       else st.field.baseRank < sub.baseRank)) := by
  have hlockneg : ¬ (st.field.isLocked = true ∧ sub.suitPattern ≠ st.field.suitPattern) := by
    rintro ⟨hl, hne⟩
    exact hne (hlock hl)
  unfold compareWithField
  rw [if_neg hjs, if_neg hsp3, if_neg (not_not.mpr hcount), if_neg (not_not.mpr htype),
    if_neg hlockneg]
  dsimp only
  split_ifs <;> simp_all <;> omega


/-- C4: for a non-pass submission against a non-empty field — past the
joker-single and Spade-3 special cases, with matching count and type and the
lock satisfied — acceptance is exactly the strict rank inequality: base-rank
strictly greater than the field's under normal order, strictly less under
effective revolution; and for a same-suit consecutive run the analyzer's
base-rank is the lowest rank in normal order and the highest under
revolution, so the comparison is over those ranks for ladders. -/
theorem claim4_strict_rank_comparison (sub : CardAnalysis) (st : GameState)
    (s r len : Nat) (rev : Bool)
    (hjs : sub.cardType ≠ CardType.JOKER_SINGLE)
    (hsp3 : ¬(st.isJokerSingle = true ∧ sub.cardType = CardType.SINGLE ∧
        sub.baseRank = 1 ∧ sub.suitPattern = 1 <<< 0))
    (hcount : sub.count = st.field.cardCount)
    (htype : sub.cardType = st.field.cardType)
    (hlock : st.field.isLocked = true → sub.suitPattern = st.field.suitPattern)
    (hlen : 3 ≤ len) :
    ((compareWithField sub st).isValid = true ↔
      (if st.effectiveRevolution then sub.baseRank < st.field.baseRank
       else st.field.baseRank < sub.baseRank)) ∧
    (analyze (runCards s r len) [] rev).cardType = CardType.SEQUENCE ∧
    (analyze (runCards s r len) [] rev).baseRank =
      (if rev then (r : Int) + len - 1 else (r : Int)) := by
  obtain ⟨m, rfl⟩ : ∃ m, len = m + 3 := ⟨len - 3, by omega⟩
  refine ⟨compare_strict sub st hjs hsp3 hcount htype hlock, ?_, ?_⟩
  · rw [analyze_run]
  · rw [analyze_run]
    cases rev <;> simp <;> push_cast <;> omega

theorem claim4_strict_rank_comparison_witness :
    ((compareWithField compareDemoAnalysis compareDemoState).isValid = true ↔
      (if compareDemoState.effectiveRevolution then
        compareDemoAnalysis.baseRank < compareDemoState.field.baseRank
       else compareDemoState.field.baseRank < compareDemoAnalysis.baseRank)) ∧
    (analyze (runCards 0 1 3) [] true).cardType = CardType.SEQUENCE ∧
    (analyze (runCards 0 1 3) [] true).baseRank = (if true then (1 : Int) + 3 - 1 else 1) :=
  claim4_strict_rank_comparison compareDemoAnalysis compareDemoState 0 1 3 true
    (by decide) (by decide) (by decide) (by decide) (by decide) (by omega)

theorem analyze_two_run (s r : Nat) (rev : Bool) :
    analyze [Card.normal s r, Card.normal s (r + 1)] [] rev =
      ⟨(r : Int), 2, 1 <<< s, .SEQUENCE, .SEQUENCE_TOO_SHORT, false⟩ := by
  simp [analyze, analyzeMultiple, addJokerPositions, cardPos, Card.isJoker, isConsecutive,
        List.insertionSort, List.orderedInsert]

theorem analyze_two_run_rev (s r : Nat) (rev : Bool) :
    analyze [Card.normal s (r + 1), Card.normal s r] [] rev =
      ⟨(r : Int), 2, 1 <<< s, .SEQUENCE, .SEQUENCE_TOO_SHORT, false⟩ := by
  simp [analyze, analyzeMultiple, addJokerPositions, cardPos, Card.isJoker, isConsecutive,
        List.insertionSort, List.orderedInsert]

theorem validate_error_reject (a : CardAnalysis) (hand cards : List Card)
    (st : GameState) (jp : List (Nat × Nat))
    (h1 : a.cardType ≠ CardType.EMPTY) (h2 : a.error ≠ AnalysisError.NONE) :
    validate a hand cards st jp = ⟨false, false⟩ := by
  simp [validate, CardAnalysis.isPass, CardAnalysis.isValid, h1, h2]

/-- C7: a submission of exactly two same-suit cards of consecutive ranks (in
either scan order) is classified as a `SEQUENCE` with error
`SEQUENCE_TOO_SHORT`, and `MoveValidator.validate` rejects it in every game
state and for every hand — including on an empty field. -/
theorem claim7_two_card_ladder_rejected (s r : Nat) (rev : Bool) (st : GameState)
    (hand : List Card) :
    (analyze [Card.normal s r, Card.normal s (r + 1)] [] rev).cardType = CardType.SEQUENCE ∧
    (analyze [Card.normal s r, Card.normal s (r + 1)] [] rev).error =
      AnalysisError.SEQUENCE_TOO_SHORT ∧
    (analyze [Card.normal s (r + 1), Card.normal s r] [] rev).cardType = CardType.SEQUENCE ∧
    (analyze [Card.normal s (r + 1), Card.normal s r] [] rev).error =
      AnalysisError.SEQUENCE_TOO_SHORT ∧
    validate (analyze [Card.normal s r, Card.normal s (r + 1)] [] rev) hand
      [Card.normal s r, Card.normal s (r + 1)] st [] = ⟨false, false⟩ ∧
    validate (analyze [Card.normal s (r + 1), Card.normal s r] [] rev) hand
      [Card.normal s (r + 1), Card.normal s r] st [] = ⟨false, false⟩ := by
  rw [analyze_two_run, analyze_two_run_rev]
  exact ⟨rfl, rfl, rfl, rfl,
    validate_error_reject _ _ _ _ _ nofun nofun,
    validate_error_reject _ _ _ _ _ nofun nofun⟩

theorem jokerSingle_analysis (rev : Bool) :
    analyze [Card.joker] [] rev = ⟨14, 1, 0, .JOKER_SINGLE, .NONE, false⟩ := rfl

theorem spade3_analysis (rev : Bool) :
    analyze [Card.normal 0 1] [] rev = ⟨1, 1, 1, .SINGLE, .NONE, false⟩ := rfl

theorem validate_reduce (a : CardAnalysis) (hand cards : List Card) (st : GameState)
    (jp : List (Nat × Nat)) (h1 : a.isPass = false) (h2 : a.isValid = true)
    (h3 : checkHandContains hand cards jp = true) (h4 : st.field.isEmpty = false) :
    validate a hand cards st jp = compareWithField a st := by
  simp [validate, h1, h2, h3, h4]

theorem validate_not_ok (a : CardAnalysis) (hand cards : List Card) (st : GameState)
    (jp : List (Nat × Nat)) (h1 : a.isPass = false)
    (h2 : ¬ (a.isValid = true ∧ checkHandContains hand cards jp = true)) :
    validate a hand cards st jp = ⟨false, false⟩ := by
  unfold validate
  rw [if_neg (by simp [h1])]
  by_cases hva : a.isValid = true
  · rw [if_neg (by simp [hva]), if_pos (by simpa [hva] using h2)]
  · rw [if_pos (by simpa using hva)]

theorem checkHandContains_single (hand : List Card) (s r : Nat)
    (h : Card.normal s r ∈ hand) :
    checkHandContains hand [Card.normal s r] [] = true := by
  simp [checkHandContains, Card.isJoker, h]

theorem checkHandContains_joker (hand : List Card) :
    checkHandContains hand [Card.joker] [] = true := by
  simp [checkHandContains, Card.isJoker]

/-- C5: with a non-empty field, a joker-single submission is accepted iff the
field holds a single; when the `is_joker_single` flag is set, the single ♠3 is
accepted; and on a joker-single field nothing but a pass or the flagged single
♠3 is ever accepted. -/
theorem claim5_joker_single_rules (st : GameState) (hand : List Card) (rev : Bool)
    (sub : CardAnalysis) (cards : List Card) (jp : List (Nat × Nat))
    (hne : st.field.cardType ≠ CardType.EMPTY) :
    ((validate (analyze [Card.joker] [] rev) hand [Card.joker] st []).isValid = true ↔
      st.field.cardType = CardType.SINGLE) ∧
    (st.isJokerSingle = true → Card.normal 0 1 ∈ hand →
      validate (analyze [Card.normal 0 1] [] rev) hand [Card.normal 0 1] st [] =
        ⟨true, false⟩) ∧
    (st.field.cardType = CardType.JOKER_SINGLE →
      (validate sub hand cards st jp).isValid = true →
      sub.cardType = CardType.EMPTY ∨
        (st.isJokerSingle = true ∧ sub.cardType = CardType.SINGLE ∧
         sub.baseRank = 1 ∧ sub.suitPattern = 1)) := by
  have hif : st.field.isEmpty = false := by
    simp [FieldState.isEmpty, hne]
  refine ⟨?_, ?_, ?_⟩
  · rw [jokerSingle_analysis, validate_reduce ⟨14, 1, 0, .JOKER_SINGLE, .NONE, false⟩
      hand [Card.joker] st [] rfl rfl (checkHandContains_joker hand) hif]
    by_cases hst : st.field.cardType = CardType.SINGLE <;> simp [compareWithField, hst]
  · intro h1 h2
    rw [spade3_analysis, validate_reduce ⟨1, 1, 1, .SINGLE, .NONE, false⟩
      hand [Card.normal 0 1] st [] rfl rfl (checkHandContains_single hand 0 1 h2) hif]
    simp [compareWithField, h1]
  · intro hjsf hv
    by_cases hp : sub.isPass = true
    · exact Or.inl (by simpa [CardAnalysis.isPass] using hp)
    rw [Bool.not_eq_true] at hp
    by_cases hok : sub.isValid = true ∧ checkHandContains hand cards jp = true
    swap
    · rw [validate_not_ok sub hand cards st jp hp hok] at hv
      exact absurd hv (by simp)
    have hif2 : st.field.isEmpty = false := by simp [FieldState.isEmpty, hjsf]
    rw [validate_reduce sub hand cards st jp hp hok.1 hok.2 hif2] at hv
    by_cases hjs2 : sub.cardType = CardType.JOKER_SINGLE
    · have hcmp : compareWithField sub st = ⟨false, false⟩ := by
        unfold compareWithField
        rw [if_pos hjs2, if_neg (by simp [hjsf])]
      rw [hcmp] at hv
      exact absurd hv (by simp)
    by_cases hs3 : st.isJokerSingle = true ∧ sub.cardType = CardType.SINGLE ∧
        sub.baseRank = 1 ∧ sub.suitPattern = 1 <<< 0
    · exact Or.inr (by simpa using hs3)
    have hcmp : compareWithField sub st = ⟨false, false⟩ := by
      unfold compareWithField
      rw [if_neg hjs2, if_neg hs3]
      by_cases hc : sub.count = st.field.cardCount
      · rw [if_neg (not_not.mpr hc), if_pos (by rw [hjsf]; exact hjs2)]
      · rw [if_pos hc]
    rw [hcmp] at hv
    exact absurd hv (by simp)


/-- C8: `_get_exchange_cards_from_high` keeps a selection exactly when it has
the right count and lies inside the giver's hand; otherwise it silently
substitutes the weakest-`n` auto-selection, which is drawn from the hand and
minimal in normal-order strength (every selected card is at most as strong as
every unselected hand card). -/
theorem claim8_exchange_auto_select (hand submitted : List Card) (n : Nat) (c1 c2 : Card) :
    ((submitted.length ≠ n ∨ ∃ c ∈ submitted, c ∉ hand) →
      getExchangeCardsFromHigh hand submitted n = autoSelectWeakest hand n) ∧
    ((submitted.length = n ∧ ∀ c ∈ submitted, c ∈ hand) →
      getExchangeCardsFromHigh hand submitted n = submitted) ∧
    (c1 ∈ autoSelectWeakest hand n → c2 ∈ hand → c2 ∉ autoSelectWeakest hand n →
      c1.strength false ≤ c2.strength false) ∧
    (c1 ∈ autoSelectWeakest hand n → c1 ∈ hand) := by
  refine ⟨?_, ?_, ?_, ?_⟩
  · intro h
    unfold getExchangeCardsFromHigh
    by_cases hlen : submitted.length ≠ n
    · rw [if_pos hlen, ite_self]
    · obtain ⟨c, hc, hnc⟩ := h.resolve_left hlen
      rw [if_neg hlen, if_pos (List.any_eq_true.mpr ⟨c, hc, by simp [hnc]⟩)]
  · rintro ⟨hlen, hmem⟩
    unfold getExchangeCardsFromHigh
    rw [if_neg (not_not.mpr hlen), if_neg]
    simp only [List.any_eq_true, not_exists, not_and, Bool.not_eq_true]
    intro c hc
    simp [hmem c hc]
  · intro h1 h2 h3
    have hsorted : List.Sorted strengthLe (List.insertionSort strengthLe hand) :=
      List.sorted_insertionSort strengthLe hand
    have hsplit := List.take_append_drop n (List.insertionSort strengthLe hand)
    have h2s : c2 ∈ List.insertionSort strengthLe hand :=
      (List.mem_insertionSort strengthLe).mpr h2
    rw [← hsplit] at h2s hsorted
    have h2d : c2 ∈ (List.insertionSort strengthLe hand).drop n := by
      rcases List.mem_append.mp h2s with h | h
      · exact absurd h h3
      · exact h
    exact (List.pairwise_append.mp hsorted).2.2 c1 h1 c2 h2d
  · intro h1
    exact (List.mem_insertionSort strengthLe).mp (List.take_subset _ _ h1)


theorem dealHand_mem {c : Card} : ∀ {cs : List Card} {k p : Nat},
    c ∈ dealHand cs k p → c ∈ cs := by
  intro cs
  induction cs with
  | nil => intro k p h; exact absurd h (List.not_mem_nil c)
  | cons c0 cs ih =>
    intro k p h
    unfold dealHand at h
    by_cases hk : k % 5 = p
    · rw [if_pos hk] at h
      rcases List.mem_cons.mp h with h | h
      · exact h ▸ List.mem_cons_self c0 cs
      · exact List.mem_cons_of_mem c0 (ih h)
    · rw [if_neg hk] at h
      exact List.mem_cons_of_mem c0 (ih h)

theorem dealHand_mem_of {c : Card} : ∀ {cs : List Card} (k : Nat),
    c ∈ cs → ∃ p, p < 5 ∧ c ∈ dealHand cs k p := by
  intro cs
  induction cs with
  | nil => intro k h; exact absurd h (List.not_mem_nil c)
  | cons c0 cs ih =>
    intro k h
    rcases List.mem_cons.mp h with h | h
    · refine ⟨k % 5, Nat.mod_lt _ (by norm_num), ?_⟩
      unfold dealHand
      rw [if_pos rfl]
      exact h ▸ List.mem_cons_self c0 _
    · obtain ⟨p, hp5, hp⟩ := ih (k + 1) h
      refine ⟨p, hp5, ?_⟩
      unfold dealHand
      by_cases hk : k % 5 = p
      · rw [if_pos hk]; exact List.mem_cons_of_mem c0 hp
      · rw [if_neg hk]; exact hp

theorem dealHand_disjoint {c : Card} : ∀ {cs : List Card} {k p q : Nat},
    cs.Nodup → p ≠ q → c ∈ dealHand cs k p → c ∉ dealHand cs k q := by
  intro cs
  induction cs with
  | nil => intro k p q _ _ h; exact absurd h (by simp [dealHand])
  | cons c0 cs ih =>
    intro k p q hnd hpq hp hq
    have hnd0 : c0 ∉ cs := (List.nodup_cons.mp hnd).1
    have hndt : cs.Nodup := (List.nodup_cons.mp hnd).2
    unfold dealHand at hp hq
    by_cases hkp : k % 5 = p
    · rw [if_pos hkp] at hp
      rw [if_neg (hkp ▸ hpq)] at hq
      rcases List.mem_cons.mp hp with h | h
      · exact hnd0 (h ▸ dealHand_mem hq)
      · exact ih hndt hpq h hq
    · rw [if_neg hkp] at hp
      by_cases hkq : k % 5 = q
      · rw [if_pos hkq] at hq
        rcases List.mem_cons.mp hq with h | h
        · exact hnd0 (h ▸ dealHand_mem hp)
        · exact ih hndt hpq hp h
      · rw [if_neg hkq] at hq
        exact ih hndt hpq hp hq

theorem dealHand_length : ∀ (cs : List Card) (k p : Nat),
    (dealHand cs k p).length = dealLen cs.length k p := by
  intro cs
  induction cs with
  | nil => intro k p; rfl
  | cons c0 cs ih =>
    intro k p
    unfold dealHand
    rw [List.length_cons]
    by_cases hk : k % 5 = p
    · rw [if_pos hk]
      simp only [dealLen, if_pos hk, List.length_cons, ih]
      omega
    · rw [if_neg hk]
      simp only [dealLen, if_neg hk, ih]
      omega

theorem fullDeckList_nodup : fullDeckList.Nodup := by decide

theorem fullDeckList_length : fullDeckList.length = 53 := by decide

theorem dealLen_balanced : ∀ k, k < 5 → ∀ p, p < 5 → ∀ q, q < 5 →
    dealLen 53 k p ≤ dealLen 53 k q + 1 := by decide

/-- C9: dealing any permutation of the full 53-card deck round-robin from any
starting seat gives hands whose union is exactly the deck, which are pairwise
disjoint, and whose sizes differ by at most one card. -/
theorem claim9_deal_integrity (cards : List Card) (hperm : cards.Perm fullDeckList)
    (s0 : Nat) (hs0 : s0 < 5) (p q : Nat) (hp : p < 5) (hq : q < 5) (c : Card) :
    ((∃ p2, p2 < 5 ∧ c ∈ dealHand cards s0 p2) ↔ c ∈ fullDeckList) ∧
    (p ≠ q → c ∈ dealHand cards s0 p → c ∉ dealHand cards s0 q) ∧
    (dealHand cards s0 p).length ≤ (dealHand cards s0 q).length + 1 := by
  refine ⟨⟨?_, ?_⟩, ?_, ?_⟩
  · rintro ⟨p2, _, hmem⟩
    exact hperm.mem_iff.mp (dealHand_mem hmem)
  · intro hmem
    exact dealHand_mem_of s0 (hperm.mem_iff.mpr hmem)
  · exact fun hpq => dealHand_disjoint (hperm.nodup_iff.mpr fullDeckList_nodup) hpq
  · rw [dealHand_length, dealHand_length, hperm.length_eq, fullDeckList_length]
    exact dealLen_balanced s0 hs0 p hp q hq


/-- C10: a table whose card rows 0–3 are all zero — in particular one whose
only non-zero card cell is the held-form joker `[4][1] = 2`, exactly where
`set_cards` places the joker — makes `get_submitted_cards` return an empty
card set and an empty substitution map, indistinguishable from a pass;
`get_submitted_cards` never scans row 4. -/
theorem claim10_held_joker_dropped (t tp : List (List Int))
    (h : zeroRows03 t = true) (hj : tableGet t 4 1 = 2) :
    getSubmittedCards t = ([], []) ∧
    tableGet (setCards tp [Card.joker]) 4 1 = 2 ∧
    zeroRows03 (setCards tp [Card.joker]) = true := by
  have h' : ∀ s, s < 4 → ∀ j, j < 15 → tableGet t s j = 0 := by
    intro s hs j hjj
    simp only [zeroRows03, List.all_eq_true, List.mem_range, decide_eq_true_eq] at h
    exact h s hs j hjj
  refine ⟨?_, rfl, rfl⟩
  have hcards : (suitRows.flatMap (fun s => rankCols.filterMap (fun r =>
      if tableGet t s r = 1 ∨ tableGet t s r = 2 then some (Card.normal s r) else none))) =
      [] := by
    apply List.eq_nil_iff_forall_not_mem.mpr
    intro c hc
    simp only [List.mem_flatMap, List.mem_filterMap, suitRows, rankCols,
      List.mem_map, List.mem_range, List.mem_cons, List.not_mem_nil, or_false] at hc
    obtain ⟨a, ha, r, ⟨i, hi, rfl⟩, hcond⟩ := hc
    have hs4 : a < 4 := by rcases ha with rfl | rfl | rfl | rfl <;> omega
    rw [h' a hs4 (i + 1) (by omega)] at hcond
    simp at hcond
  have hjp : (suitRows.flatMap (fun s => rankCols.filterMap (fun r =>
      if tableGet t s r = 2 then some ((s, r) : Nat × Nat) else none))) = [] := by
    apply List.eq_nil_iff_forall_not_mem.mpr
    intro c hc
    simp only [List.mem_flatMap, List.mem_filterMap, suitRows, rankCols,
      List.mem_map, List.mem_range, List.mem_cons, List.not_mem_nil, or_false] at hc
    obtain ⟨a, ha, r, ⟨i, hi, rfl⟩, hcond⟩ := hc
    have hs4 : a < 4 := by rcases ha with rfl | rfl | rfl | rfl <;> omega
    rw [h' a hs4 (i + 1) (by omega)] at hcond
    rw [if_neg (by norm_num : ¬((0 : Int) = 2))] at hcond
    exact Option.noConfusion hcond
  have hstand : (suitRows.any (fun s =>
      (List.range 15).any (fun col => tableGet t s col = 2))) = false := by
    refine List.any_eq_false.mpr ?_
    intro a ha hcontra
    rw [List.any_eq_true] at hcontra
    obtain ⟨col, hcol, hcontra⟩ := hcontra
    rw [List.mem_range] at hcol
    rw [decide_eq_true_eq] at hcontra
    have hs4 : a < 4 := by
      simp only [suitRows, List.mem_cons, List.not_mem_nil, or_false] at ha
      rcases ha with rfl | rfl | rfl | rfl <;> omega
    rw [h' a hs4 col hcol] at hcontra
    omega
  unfold getSubmittedCards
  rw [hcards, hjp]
  simp [hstand]


theorem packU32_val (v : Nat) (h : v < 4294967296) :
    ((v / 16777216 % 256 * 256 + v / 65536 % 256) * 256 + v / 256 % 256) * 256 + v % 256
      = v := by omega

theorem cellBytes_eq (c : Int) (h : clampCell c < 4294967296) :
    cellBytes c = some (packU32 (clampCell c)) := by
  rw [cellBytes, if_pos h]

theorem bytesOfRow_eq (row : List Int) (h : ∀ c ∈ row, clampCell c < 4294967296) :
    bytesOfRow row = some ((row.map (fun c => packU32 (clampCell c))).flatten) := by
  induction row with
  | nil => rfl
  | cons c cs ih =>
    rw [bytesOfRow, cellBytes_eq c (h c (List.mem_cons_self c cs)),
      ih (fun x hx => h x (List.mem_cons_of_mem c hx))]
    rfl

theorem toBytes_eq (t : List (List Int))
    (h : ∀ row ∈ t, ∀ c ∈ row, clampCell c < 4294967296) :
    toBytes t = some ((t.map (fun row =>
      (row.map (fun c => packU32 (clampCell c))).flatten)).flatten) := by
  induction t with
  | nil => rfl
  | cons row rest ih =>
    rw [toBytes, bytesOfRow_eq row (h row (List.mem_cons_self row rest)),
      ih (fun r hr => h r (List.mem_cons_of_mem row hr))]
    rfl

theorem flatten_map_flatten {α β : Type} (f : α → List β) (t : List (List α)) :
    (t.map (fun row => (row.map f).flatten)).flatten = ((t.flatten).map f).flatten := by
  induction t with
  | nil => rfl
  | cons row rest ih =>
    simp only [List.map_cons, List.flatten_cons, List.map_append, List.flatten_append, ih]

theorem flatten_length_uniform {α : Type} (B : Nat) :
    ∀ (blocks : List (List α)), (∀ b ∈ blocks, b.length = B) →
      (blocks.flatten).length = B * blocks.length := by
  intro blocks
  induction blocks with
  | nil => intro _; simp
  | cons b bs ih =>
    intro hb
    rw [List.flatten_cons, List.length_append, hb b (List.mem_cons_self b bs),
      ih (fun x hx => hb x (List.mem_cons_of_mem b hx)), List.length_cons, Nat.mul_succ]
    omega

theorem getD_flatten_blocks {α : Type} (d : α) (B : Nat) :
    ∀ (blocks : List (List α)), (∀ b ∈ blocks, b.length = B) → ∀ (m j : Nat), j < B →
      (blocks.flatten).getD (B * m + j) d = (blocks.getD m []).getD j d := by
  intro blocks
  induction blocks with
  | nil => intro _ m j _; cases m <;> rfl
  | cons b bs ih =>
    intro hb m j hj
    have hbl : b.length = B := hb b (List.mem_cons_self b bs)
    cases m with
    | zero =>
      rw [Nat.mul_zero, Nat.zero_add, List.flatten_cons, List.getD_eq_getElem?_getD,
        List.getElem?_append_left (by omega), ← List.getD_eq_getElem?_getD,
        List.getD_cons_zero]
    | succ m =>
      have harith : B * (m + 1) + j = b.length + (B * m + j) := by
        rw [hbl, Nat.mul_succ]
        omega
      rw [List.flatten_cons, harith, List.getD_eq_getElem?_getD,
        List.getElem?_append_right (Nat.le_add_right _ _), Nat.add_sub_cancel_left,
        ← List.getD_eq_getElem?_getD,
        ih (fun x hx => hb x (List.mem_cons_of_mem b hx)) m j hj, List.getD_cons_succ]

theorem getD_map_lt {α β : Type} (f : α → β) (l : List α) (m : Nat) (h : m < l.length)
    (d : α) (d2 : β) : (l.map f).getD m d2 = f (l.getD m d) := by
  simp [List.getD_eq_getElem?_getD, List.getElem?_eq_getElem, h]

theorem getD_mem_of_lt {α : Type} (l : List α) (m : Nat) (d : α) (h : m < l.length) :
    l.getD m d ∈ l := by
  rw [List.getD_eq_getElem?_getD, List.getElem?_eq_getElem h]
  exact List.getElem_mem h

theorem range_map_getD {α β : Type} (d : α) (F : α → β) :
    ∀ (l : List α), (List.range l.length).map (fun i => F (l.getD i d)) = l.map F := by
  intro l
  induction l with
  | nil => rfl
  | cons a l ih =>
    rw [List.length_cons, List.range_succ_eq_map, List.map_cons, List.map_map,
      List.getD_cons_zero, List.map_cons]
    have hcomp : List.map ((fun i => F (List.getD (a :: l) i d)) ∘ Nat.succ)
        (List.range l.length) = List.map (fun i => F (l.getD i d)) (List.range l.length) :=
      List.map_congr_left (fun i _ => by simp [Function.comp])
    rw [hcomp, ih]


/-- C6: encoding then decoding a well-formed 8×15 table whose cells fit in 32
bits returns the table with each cell clamped at zero; in particular the round
trip is the identity on tables of non-negative cells, and a negative cell is
encoded exactly like zero. -/
theorem claim6_table_round_trip (t : List (List Int)) (h8 : t.length = 8)
    (h15 : ∀ row ∈ t, row.length = 15)
    (hbound : ∀ row ∈ t, ∀ x ∈ row, x < 4294967296) (c : Int) :
    tableRoundTrip t = some (t.map (List.map clampInt)) ∧
    ((∀ row ∈ t, ∀ x ∈ row, 0 ≤ x) → tableRoundTrip t = some t) ∧
    (c < 0 → cellBytes c = cellBytes 0) := by
  have hcb : ∀ row ∈ t, ∀ x ∈ row, clampCell x < 4294967296 := by
    intro row hr x hx
    have hb := hbound row hr x hx
    unfold clampCell
    split <;> omega
  have hcl : (t.flatten).length = 120 := by
    rw [flatten_length_uniform 15 t h15, h8]
  have hcellb : ∀ x ∈ t.flatten, clampCell x < 4294967296 := by
    intro x hx
    obtain ⟨row, hr, hx⟩ := List.mem_flatten.mp hx
    exact hcb row hr x hx
  have hblocks : ∀ b ∈ (t.flatten).map (fun x => packU32 (clampCell x)), b.length = 4 := by
    intro b hb
    obtain ⟨x, _, rfl⟩ := List.mem_map.mp hb
    rfl
  have htb : toBytes t = some (((t.flatten).map (fun x => packU32 (clampCell x))).flatten) := by
    rw [toBytes_eq t hcb, flatten_map_flatten]
  have hblen : (((t.flatten).map (fun x => packU32 (clampCell x))).flatten).length = 480 := by
    rw [flatten_length_uniform 4 _ hblocks, List.length_map, hcl]
  have hcell : ∀ i, i < 8 → ∀ j, j < 15 →
      u32At (((t.flatten).map (fun x => packU32 (clampCell x))).flatten) ((i * 15 + j) * 4)
        = clampInt ((t.getD i []).getD j 0) := by
    intro i hi j hj
    have hmc : i * 15 + j < (t.flatten).length := by rw [hcl]; omega
    have hbk : ∀ k, k < 4 →
        (((t.flatten).map (fun x => packU32 (clampCell x))).flatten).getD
          (4 * (i * 15 + j) + k) 0 =
        (packU32 (clampCell ((t.flatten).getD (i * 15 + j) 0))).getD k 0 := by
      intro k hk
      rw [getD_flatten_blocks 0 4 _ hblocks _ k hk, getD_map_lt _ _ _ hmc 0 []]
    have hb0 := hbk 0 (by omega)
    have hb1 := hbk 1 (by omega)
    have hb2 := hbk 2 (by omega)
    have hb3 := hbk 3 (by omega)
    rw [Nat.add_zero] at hb0
    unfold u32At
    rw [show (i * 15 + j) * 4 = 4 * (i * 15 + j) from by ring, hb0, hb1, hb2, hb3]
    have hv : clampCell ((t.flatten).getD (i * 15 + j) 0) < 4294967296 :=
      hcellb _ (getD_mem_of_lt _ _ _ hmc)
    have hfl : (t.flatten).getD (i * 15 + j) 0 = (t.getD i []).getD j 0 := by
      have h2 : i * 15 + j = 15 * i + j := by ring
      rw [h2, getD_flatten_blocks 0 15 t h15 i j hj]
    unfold packU32 clampInt
    simp only [List.getD_cons_zero, List.getD_cons_succ]
    rw [hfl] at hv ⊢
    exact congrArg (Int.ofNat) (packU32_val _ hv)
  have hmain : tableRoundTrip t = some (t.map (List.map clampInt)) := by
    rw [tableRoundTrip, htb]
    show fromBytes _ = _
    rw [fromBytes, if_pos hblen]
    congr 1
    have hinner : ∀ i ∈ List.range 8,
        (List.range 15).map (fun j =>
          u32At (((t.flatten).map (fun x => packU32 (clampCell x))).flatten)
            ((i * 15 + j) * 4)) = (t.getD i []).map clampInt := by
      intro i hi
      rw [List.mem_range] at hi
      have hrowlen : (t.getD i []).length = 15 :=
        h15 _ (getD_mem_of_lt t i [] (by omega))
      calc (List.range 15).map (fun j =>
            u32At (((t.flatten).map (fun x => packU32 (clampCell x))).flatten)
              ((i * 15 + j) * 4))
          = (List.range 15).map (fun j => clampInt ((t.getD i []).getD j 0)) :=
            List.map_congr_left (fun j hj => hcell i hi j (List.mem_range.mp hj))
        _ = (List.range (t.getD i []).length).map
              (fun j => clampInt ((t.getD i []).getD j 0)) := by rw [hrowlen]
        _ = (t.getD i []).map clampInt := range_map_getD 0 clampInt _
    calc (List.range 8).map (fun i => (List.range 15).map (fun j =>
          u32At (((t.flatten).map (fun x => packU32 (clampCell x))).flatten)
            ((i * 15 + j) * 4)))
        = (List.range 8).map (fun i => (t.getD i []).map clampInt) :=
          List.map_congr_left hinner
      _ = (List.range t.length).map (fun i => (t.getD i []).map clampInt) := by rw [h8]
      _ = t.map (List.map clampInt) := range_map_getD [] (List.map clampInt) t
  refine ⟨hmain, ?_, ?_⟩
  · intro hpos
    rw [hmain]
    congr 1
    have hrow : ∀ row ∈ t, List.map clampInt row = id row := by
      intro row hr
      have hx : ∀ x ∈ row, clampInt x = id x := by
        intro x hx
        have h0 := hpos row hr x hx
        unfold clampInt clampCell
        rw [if_pos h0]
        simpa using Int.toNat_of_nonneg h0
      rw [List.map_congr_left hx, List.map_id]
      rfl
    rw [List.map_congr_left hrow, List.map_id]
  · intro hneg
    have hcc : clampCell c = clampCell 0 := by
      unfold clampCell
      rw [if_neg (by omega), if_pos (by omega)]
    rw [cellBytes, cellBytes, hcc]


theorem claim5_joker_single_rules_witness :
    ((validate (analyze [Card.joker] [] false) jokerSingleDemoHand [Card.joker]
        jokerSingleDemoState []).isValid = true ↔
      jokerSingleDemoState.field.cardType = CardType.SINGLE) ∧
    (jokerSingleDemoState.isJokerSingle = true → Card.normal 0 1 ∈ jokerSingleDemoHand →
      validate (analyze [Card.normal 0 1] [] false) jokerSingleDemoHand [Card.normal 0 1]
        jokerSingleDemoState [] = ⟨true, false⟩) ∧
    (jokerSingleDemoState.field.cardType = CardType.JOKER_SINGLE →
      (validate ⟨3, 1, 4, .SINGLE, .NONE, false⟩ jokerSingleDemoHand [Card.normal 2 3]
        jokerSingleDemoState []).isValid = true →
      (⟨3, 1, 4, .SINGLE, .NONE, false⟩ : CardAnalysis).cardType = CardType.EMPTY ∨
        (jokerSingleDemoState.isJokerSingle = true ∧
         (⟨3, 1, 4, .SINGLE, .NONE, false⟩ : CardAnalysis).cardType = CardType.SINGLE ∧
         (⟨3, 1, 4, .SINGLE, .NONE, false⟩ : CardAnalysis).baseRank = 1 ∧
         (⟨3, 1, 4, .SINGLE, .NONE, false⟩ : CardAnalysis).suitPattern = 1)) :=
  claim5_joker_single_rules jokerSingleDemoState jokerSingleDemoHand false
    ⟨3, 1, 4, .SINGLE, .NONE, false⟩ [Card.normal 2 3] [] (by decide)

theorem claim6_table_round_trip_witness :
    tableRoundTrip roundTripDemoTable = some roundTripDemoTable ∧
    cellBytes (-3) = cellBytes 0 :=
  ⟨(claim6_table_round_trip roundTripDemoTable (by decide) (by decide) (by decide)
      (-3)).2.1 (by decide),
   (claim6_table_round_trip roundTripDemoTable (by decide) (by decide) (by decide)
      (-3)).2.2 (by decide)⟩

theorem claim8_exchange_auto_select_witness :
    getExchangeCardsFromHigh exchangeDemoHand [Card.normal 0 3] 2 =
      autoSelectWeakest exchangeDemoHand 2 ∧
    getExchangeCardsFromHigh exchangeDemoHand [Card.normal 0 3, Card.normal 2 13] 2 =
      [Card.normal 0 3, Card.normal 2 13] ∧
    (Card.normal 1 1).strength false ≤ (Card.normal 2 13).strength false ∧
    Card.normal 1 1 ∈ exchangeDemoHand :=
  ⟨(claim8_exchange_auto_select exchangeDemoHand [Card.normal 0 3] 2 (Card.normal 1 1)
      (Card.normal 2 13)).1 (Or.inl (by decide)),
   (claim8_exchange_auto_select exchangeDemoHand [Card.normal 0 3, Card.normal 2 13] 2
      (Card.normal 1 1) (Card.normal 2 13)).2.1 (by decide),
   (claim8_exchange_auto_select exchangeDemoHand [Card.normal 0 3] 2 (Card.normal 1 1)
      (Card.normal 2 13)).2.2.1 (by decide) (by decide) (by decide),
   (claim8_exchange_auto_select exchangeDemoHand [Card.normal 0 3] 2 (Card.normal 1 1)
      (Card.normal 2 13)).2.2.2 (by decide)⟩

theorem claim9_deal_integrity_witness :
    ((∃ p2, p2 < 5 ∧ Card.joker ∈ dealHand fullDeckList 0 p2) ↔
      Card.joker ∈ fullDeckList) ∧
    ((0 : Nat) ≠ 1 → Card.joker ∈ dealHand fullDeckList 0 0 →
      Card.joker ∉ dealHand fullDeckList 0 1) ∧
    (dealHand fullDeckList 0 0).length ≤ (dealHand fullDeckList 0 1).length + 1 :=
  claim9_deal_integrity fullDeckList (List.Perm.refl _) 0 (by omega) 0 1 (by omega)
    (by omega) Card.joker

theorem claim10_held_joker_dropped_witness :
    getSubmittedCards (setCards emptyTable [Card.joker]) = ([], []) ∧
    tableGet (setCards emptyTable [Card.joker]) 4 1 = 2 ∧
    zeroRows03 (setCards emptyTable [Card.joker]) = true :=
  claim10_held_joker_dropped (setCards emptyTable [Card.joker]) emptyTable
    (by decide) (by decide)

end UecdaSpec
